import Mathlib

/-!
Verification of the identity-resolution and duplicate-prevention core of the
HWD Event Attendance Report Generator backend.

The definitions below are shallow embeddings of the Express route handlers in
`src/backend/src/features/attendance/attendance.routes.js`,
`src/backend/src/features/registrations/registrations.routes.js`,
the evaluations router, and the reconciliation migration
(`cleanup-duplicates.js`).  Stored rows are plain structures, the database is a
list of rows, and each handler becomes a pure function from request data and
database state to an outcome plus a new state.  Nullable SQL columns become
`Option String`; SQL `LOWER(x) = LOWER(y)` on a nullable column matches only
non-NULL values, which `Option.map jsLower` reproduces.  String trimming,
lowercasing and uppercasing are given executable character-list definitions
(`jsTrim`, `jsLower`, `jsUpper`) mirroring the JS string methods.
-/

namespace HWD

/-- JS whitespace for `String.prototype.trim` (the characters that occur in
spreadsheet cells). -/
def isWs (c : Char) : Bool :=
  c = ' ' || c = '\t' || c = '\n' || c = '\r'

/-- `s.trim()`: strip leading and trailing whitespace. -/
def jsTrim (s : String) : String :=
  String.mk (((s.data.dropWhile isWs).reverse.dropWhile isWs).reverse)

/-- `s.toLowerCase()` / SQL `LOWER(s)` (ASCII, as employee data here is). -/
def jsLower (s : String) : String :=
  String.mk (s.data.map Char.toLower)

/-- `s.toUpperCase()` (ASCII). -/
def jsUpper (s : String) : String :=
  String.mk (s.data.map Char.toUpper)

/-- An event row: `{ event_id, event_name }` (the fields this core reads). -/
structure Event where
  event_id : Nat
  event_name : String
deriving DecidableEq, Repr

/-- A registration row (table `registrations`). -/
structure RegRow where
  reg_id : Nat
  employee_no : Option String
  employee_name : Option String
  department : Option String
  event_id : Nat
deriving DecidableEq, Repr

/-- An attendance row (table `attendances`). -/
structure AttRow where
  attendance_id : Nat
  employee_no : Option String
  employee_name : Option String
  department : Option String
  mode_of_attendance : String
  validation_status : String
  event_id : Nat
deriving DecidableEq, Repr

/-- An evaluation row (table `evaluations`); the nine rating fields and the
session-helpful flag are carried as an association list, mirroring the
`...ratings` object spread in the route handlers. -/
structure EvalRow where
  evaluation_id : Nat
  employee_no : Option String
  employee_name : String
  event_id : Nat
  ratings : List (String × String)
deriving DecidableEq, Repr

/-- JS `s?.trim() || null`: trim, and take the empty string to `null`. -/
def trimToNull (s : Option String) : Option String :=
  match s with
  | none => none
  | some t => if (jsTrim t) = "" then none else some (jsTrim t)

/-- Next auto-increment primary key: one more than the largest id in use. -/
def nextId (ids : List Nat) : Nat :=
  ids.foldr Nat.max 0 + 1

/-- `computeValidationStatus` from `attendance.routes.js` (lines 14-20):
`null`/empty and the literal string `"NA"` short-circuit to `Not Registered`;
otherwise a `Registration` row with the same `employee_no` and `event_id`
decides between `Registered` and `Not Registered`. -/
def computeValidationStatus (employeeNo : Option String) (eventId : Nat)
    (regs : List RegRow) : String :=
  match employeeNo with
  | none => "Not Registered"
  | some n =>
    if n = "" ∨ n = "NA" then "Not Registered"
    else if regs.any (fun r => r.employee_no == some n && r.event_id == eventId) then
      "Registered"
    else "Not Registered"

/-- The duplicate pre-check of `POST /attendance` (lines 146-160): a stored row
for the same event matches when its `employee_no` equals the submitted number,
or (when a name was submitted) `LOWER(employee_name)` equals the lowercased
submitted name. -/
def attDupMatch (finalNo finalName : Option String) (eventId : Nat)
    (r : AttRow) : Bool :=
  r.event_id == eventId &&
    ((match finalNo with
      | some n => r.employee_no == some n
      | none => false) ||
     (match finalName with
      | some nm => r.employee_name.map jsLower == some (jsLower nm)
      | none => false))

/-- `Attendance.findOne` for the create-path duplicate pre-check. -/
def attDupCheck (finalNo finalName : Option String) (eventId : Nat)
    (db : List AttRow) : Option AttRow :=
  db.find? (attDupMatch finalNo finalName eventId)

/-- The duplicate pre-check of `POST /registrations` (lines 121-133): the
`employee_no` disjunct only when a number was supplied; the lowercased-name
disjunct always (a name is required on this route). -/
def regDupMatch (finalNo : Option String) (name : String) (eventId : Nat)
    (r : RegRow) : Bool :=
  r.event_id == eventId &&
    ((match finalNo with
      | some n => r.employee_no == some n
      | none => false) ||
     r.employee_name.map jsLower == some (jsLower name))

/-- `Registration.findOne` for the create-path duplicate pre-check. -/
def regDupCheck (finalNo : Option String) (name : String) (eventId : Nat)
    (db : List RegRow) : Option RegRow :=
  db.find? (regDupMatch finalNo name eventId)

/-- The duplicate pre-check of `POST /evaluations`: same shape as the
registration check except that the stored `employee_name` is compared
**exactly** (`{ employee_name: employee_name.trim() }`), with no lowercasing. -/
def evalDupMatch (finalNo : Option String) (name : String) (eventId : Nat)
    (r : EvalRow) : Bool :=
  r.event_id == eventId &&
    ((match finalNo with
      | some n => r.employee_no == some n
      | none => false) ||
     r.employee_name == name)

/-- `Evaluation.findOne` for the create-path duplicate pre-check. -/
def evalDupCheck (finalNo : Option String) (name : String) (eventId : Nat)
    (db : List EvalRow) : Option EvalRow :=
  db.find? (evalDupMatch finalNo name eventId)

/-- Outcome of a create handler, as seen by the HTTP caller. -/
inductive CreateOutcome (ρ : Type) where
  | badRequest (msg : String)
  | conflict (msg : String)
  | createdOk (row : ρ)
deriving DecidableEq, Repr

/-- `true` exactly on the HTTP 409 outcome. -/
def CreateOutcome.isConflict {ρ : Type} : CreateOutcome ρ → Bool
  | .conflict _ => true
  | _ => false

/-- `true` exactly on the HTTP 201 outcome. -/
def CreateOutcome.isCreated {ρ : Type} : CreateOutcome ρ → Bool
  | .createdOk _ => true
  | _ => false

/-- `POST /attendance` after event resolution (lines 129-180): trim the
number and name to `null`, reject when both are absent, run the duplicate
pre-check, compute the validation status, and insert the row. -/
def attendanceCreate (employee_no employee_name department : Option String)
    (mode : String) (eventId : Nat) (db : List AttRow) (regs : List RegRow) :
    CreateOutcome AttRow × List AttRow :=
  let finalNo := trimToNull employee_no
  let finalName := trimToNull employee_name
  if finalNo = none ∧ finalName = none then
    (.badRequest "Employee Name required for walk-ins", db)
  else
    match attDupCheck finalNo finalName eventId db with
    | some _ => (.conflict "Duplicate attendance found", db)
    | none =>
      let vs := computeValidationStatus finalNo eventId regs
      let row : AttRow :=
        { attendance_id := nextId (db.map AttRow.attendance_id)
          employee_no := finalNo
          employee_name := finalName
          department := trimToNull department
          mode_of_attendance := mode
          validation_status := vs
          event_id := eventId }
      (.createdOk row, db ++ [row])

/-- `POST /registrations` (lines 111-149): the name is a required field and is
stored trimmed; the number trims to `null`. -/
def registrationCreate (employee_no : Option String) (employee_name : String)
    (department : Option String) (eventId : Nat) (db : List RegRow) :
    CreateOutcome RegRow × List RegRow :=
  let finalNo := trimToNull employee_no
  match regDupCheck finalNo (jsTrim employee_name) eventId db with
  | some _ => (.conflict "Duplicate registration found", db)
  | none =>
    let row : RegRow :=
      { reg_id := nextId (db.map RegRow.reg_id)
        employee_no := finalNo
        employee_name := some (jsTrim employee_name)
        department := trimToNull department
        event_id := eventId }
    (.createdOk row, db ++ [row])

/-- `POST /evaluations` (part_002 lines 130-165): exact-name duplicate check,
then insert. -/
def evaluationCreate (employee_no : Option String) (employee_name : String)
    (eventId : Nat) (ratings : List (String × String)) (db : List EvalRow) :
    CreateOutcome EvalRow × List EvalRow :=
  let finalNo := trimToNull employee_no
  match evalDupCheck finalNo (jsTrim employee_name) eventId db with
  | some _ => (.conflict "Duplicate evaluation found", db)
  | none =>
    let row : EvalRow :=
      { evaluation_id := nextId (db.map EvalRow.evaluation_id)
        employee_no := finalNo
        employee_name := (jsTrim employee_name)
        event_id := eventId
        ratings := ratings }
    (.createdOk row, db ++ [row])

/-! ### Bulk import pipelines -/

/-- In-batch duplicate key for an identified employee: `"<no>_<event_id>"`. -/
def keyByNumber (no : String) (eventId : Nat) : String :=
  no ++ "_" ++ toString eventId

/-- In-batch duplicate key for a walk-in: `"NA_<event_id>_<lowercased name>"`. -/
def keyWalkIn (eventId : Nat) (nameLower : String) : String :=
  "NA_" ++ toString eventId ++ "_" ++ nameLower

/-- `mode.charAt(0).toUpperCase() + mode.slice(1)`. -/
def capitalizeFirst (s : String) : String :=
  match s.data with
  | [] => s
  | c :: rest => String.mk (c.toUpper :: rest)

/-- What one spreadsheet row does to the import state: skip (sometimes after
the key was already recorded in `seen`), or insert a record and record its
key. -/
inductive RowOutcome (ρ : Type) where
  | skipKeepSeen (reason : String)
  | skipAddSeen (reason : String) (key : String)
  | insert (rec : ρ) (key : String)
deriving DecidableEq, Repr

/-- A raw attendance spreadsheet row (the five header cells). -/
structure RawAttRow where
  employeeNo : String
  employeeName : String
  department : String
  mode : String
  eventName : String
deriving DecidableEq, Repr

/-- State threaded through `POST /attendance/upload`. -/
structure AttState where
  db : List AttRow
  created : List AttRow
  skipped : List (RawAttRow × String)
  seen : List String
deriving DecidableEq, Repr

/-- The loop body of `POST /attendance/upload` (lines 315-399): event by exact
name, mode validation, `employee no || 'NA'` sentinel, in-file `seen` check,
then — with the key **already added to `seen`** — the storage duplicate check,
and finally the insert.  Cells are trimmed as at extraction (line 317). -/
def attDecide (events : List Event) (regs : List RegRow) (db : List AttRow)
    (seen : List String) (raw : RawAttRow) : RowOutcome AttRow :=
  let event_name := (jsTrim raw.eventName)
  if event_name = "" then .skipKeepSeen "Missing Event Name"
  else
    match events.find? (fun e => e.event_name == event_name) with
    | none => .skipKeepSeen ("Event \"" ++ event_name ++ "\" not found")
    | some event =>
      let mode := jsLower (jsTrim raw.mode)
      if ¬(mode = "virtual" ∨ mode = "onsite") then
        .skipKeepSeen "Invalid Mode of Attendance (must be Virtual or Onsite)"
      else
        let empNo := (jsTrim raw.employeeNo)
        let finalNo := if empNo = "" then "NA" else empNo
        let name := (jsTrim raw.employeeName)
        if finalNo = "NA" ∧ name = "" then
          .skipKeepSeen "Employee Name required for walk-ins"
        else
          let key := if finalNo = "NA" then keyWalkIn event.event_id (jsLower name)
                     else keyByNumber finalNo event.event_id
          if seen.contains key then
            .skipKeepSeen (if finalNo = "NA" then
                "Duplicate walk-in \"" ++ name ++ "\" for event \"" ++ event_name ++ "\""
              else
                "Duplicate employee \"" ++ finalNo ++ "\" for event \"" ++ event_name ++ "\"")
          else
            let dbHit := db.any (fun r => r.event_id == event.event_id &&
              ((finalNo != "NA" && r.employee_no == some finalNo) ||
               (name != "" && r.employee_name.map jsLower == some (jsLower name))))
            if dbHit then
              .skipAddSeen (if finalNo != "NA" then
                  "Employee " ++ finalNo ++ " already attended \"" ++ event_name ++ "\""
                else
                  "Walk-in \"" ++ name ++ "\" already recorded for \"" ++ event_name ++ "\"") key
            else
              let vs := computeValidationStatus
                (if finalNo != "NA" then some finalNo else none) event.event_id regs
              .insert
                { attendance_id := nextId (db.map AttRow.attendance_id)
                  employee_no := if finalNo != "NA" then some finalNo else none
                  employee_name := if name = "" then none else some name
                  department := if (jsTrim raw.department) = "" then none else some (jsTrim raw.department)
                  mode_of_attendance := capitalizeFirst mode
                  validation_status := vs
                  event_id := event.event_id } key

/-- Apply a row outcome to the attendance import state (the `continue`/push
effects of the loop body). -/
def attApply (st : AttState) (raw : RawAttRow) : RowOutcome AttRow → AttState
  | .skipKeepSeen r => { st with skipped := st.skipped ++ [(raw, r)] }
  | .skipAddSeen r k =>
    { st with skipped := st.skipped ++ [(raw, r)], seen := st.seen ++ [k] }
  | .insert rec k =>
    { st with db := st.db ++ [rec], created := st.created ++ [rec],
              seen := st.seen ++ [k] }

/-- One iteration of the attendance upload loop. -/
def attStep (events : List Event) (regs : List RegRow) (st : AttState)
    (raw : RawAttRow) : AttState :=
  attApply st raw (attDecide events regs st.db st.seen raw)

/-- `POST /attendance/upload`: fold the loop body over the rows in file order,
starting from empty `created`/`skipped`/`seen`. -/
def attUpload (events : List Event) (regs : List RegRow) (db : List AttRow)
    (rows : List RawAttRow) : AttState :=
  rows.foldl (attStep events regs) ⟨db, [], [], []⟩

/-- A raw registration spreadsheet row (the four header cells). -/
structure RawRegRow where
  employeeNo : String
  employeeName : String
  department : String
  eventName : String
deriving DecidableEq, Repr

/-- State threaded through `POST /registrations/upload`. -/
structure RegState where
  db : List RegRow
  created : List RegRow
  skipped : List (RawRegRow × String)
  seen : List String
deriving DecidableEq, Repr

/-- The loop body of `POST /registrations/upload` (lines 238-308): name
validation, case-insensitive event lookup, in-file `seen` check, storage
duplicate check, and only then `seen.set` immediately followed by the insert. -/
def regDecide (events : List Event) (db : List RegRow) (seen : List String)
    (raw : RawRegRow) : RowOutcome RegRow :=
  let rawNo := (jsTrim raw.employeeNo)
  let rawName := (jsTrim raw.employeeName)
  let event_name := (jsTrim raw.eventName)
  if rawName = "" ∨ rawName.length < 2 then
    .skipKeepSeen "Invalid or missing Employee Name"
  else
    match events.find? (fun e => (jsLower e.event_name) == (jsLower event_name)) with
    | none => .skipKeepSeen ("Event \"" ++ event_name ++ "\" not found")
    | some event =>
      let finalNo : Option String := if rawNo = "" then none else some rawNo
      let key := match finalNo with
        | some n => keyByNumber n event.event_id
        | none => keyWalkIn event.event_id (jsLower rawName)
      if seen.contains key then
        .skipKeepSeen (match finalNo with
          | some n => "Duplicate employee \"" ++ n ++ "\" for event \"" ++ event_name ++ "\" (in file)"
          | none => "Duplicate walk-in \"" ++ rawName ++ "\" for event \"" ++ event_name ++ "\" (in file)")
      else
        let dbHit := db.any (fun r => r.event_id == event.event_id &&
          ((match finalNo with
            | some n => r.employee_no == some n
            | none => false) ||
           r.employee_name.map jsLower == some (jsLower rawName)))
        if dbHit then
          .skipKeepSeen (match finalNo with
            | some n => "Employee \"" ++ n ++ "\" already registered for event \"" ++ event_name ++ "\""
            | none => "Walk-in \"" ++ rawName ++ "\" already registered for event \"" ++ event_name ++ "\"")
        else
          .insert
            { reg_id := nextId (db.map RegRow.reg_id)
              employee_no := finalNo
              employee_name := some rawName
              department := if (jsTrim raw.department) = "" then none else some (jsTrim raw.department)
              event_id := event.event_id } key

/-- Apply a row outcome to the registration import state. -/
def regApply (st : RegState) (raw : RawRegRow) : RowOutcome RegRow → RegState
  | .skipKeepSeen r => { st with skipped := st.skipped ++ [(raw, r)] }
  | .skipAddSeen r k =>
    { st with skipped := st.skipped ++ [(raw, r)], seen := st.seen ++ [k] }
  | .insert rec k =>
    { st with db := st.db ++ [rec], created := st.created ++ [rec],
              seen := st.seen ++ [k] }

/-- One iteration of the registration upload loop. -/
def regStep (events : List Event) (st : RegState) (raw : RawRegRow) : RegState :=
  regApply st raw (regDecide events st.db st.seen raw)

/-- `POST /registrations/upload`: fold over the rows in file order. -/
def regUpload (events : List Event) (db : List RegRow) (rows : List RawRegRow) :
    RegState :=
  rows.foldl (regStep events) ⟨db, [], [], []⟩

/-- The in-batch key a persisted registration row corresponds to: number key
for identified employees, lowercased-name walk-in key otherwise. -/
def regRecordKey (r : RegRow) : String :=
  match r.employee_no with
  | some n => keyByNumber n r.event_id
  | none => keyWalkIn r.event_id (jsLower (r.employee_name.getD ""))

/-! ### Evaluation upload rating validation -/

/-- The `ratingFields` map of `POST /evaluations/upload` (DB-check version):
spreadsheet column name paired with the model field it feeds, in code order. -/
def evalRatingFields : List (String × String) :=
  [("Objectives Met", "objectives_met"),
   ("Relevance", "relevance"),
   ("Venue", "venue"),
   ("Activity", "activity"),
   ("Value of Time Spent", "value_time_spent"),
   ("Overall Rating", "overall_rating"),
   ("Discussed Topic Clearly and Effectively", "topic_clear_effective"),
   ("Answered Questions Appropriately", "answered_questions"),
   ("Presentation/Materials", "presentation_materials"),
   ("Session Helpful", "session_helpful")]

/-- `(row[col] || 'NA').toString().trim().toUpperCase()`. -/
def normCell (s : String) : String :=
  jsUpper (jsTrim (if s = "" then "NA" else s))

/-- The acceptance test of one rating cell: ratings accept `1..5` and `NA`;
the `session_helpful` field additionally accepts `YES`/`NO`. -/
def ratingOk (field val : String) : Bool :=
  ["1", "2", "3", "4", "5", "NA"].contains val ||
  (field == "session_helpful" && ["YES", "NO"].contains val)

/-- The rating-validation loop of `POST /evaluations/upload`: returns the
first offending `(field, normalized value)`, or `none` when every cell is
accepted (a skipped row sets `validRow = false` and `break`s). -/
def checkRatings : List (String × String) → (String → String) →
    Option (String × String)
  | [], _ => none
  | (col, field) :: rest, row =>
    let val := normCell (row col)
    if ratingOk field val then checkRatings rest row else some (field, val)

/-! ### Reconciliation migration -/

/-- The `GROUP BY employee_no, event_id` key (SQL groups NULLs together). -/
def regKey (r : RegRow) : Option String × Nat :=
  (r.employee_no, r.event_id)

/-- `MIN(reg_id)` over the group of `r` in `l` (seeded with `r`'s own id;
when `r ∈ l` the seed is itself a group member, so this is the group's
minimum). -/
def groupMinId (l : List RegRow) (r : RegRow) : Nat :=
  ((l.filter (fun s => regKey s == regKey r)).map RegRow.reg_id).foldr Nat.min r.reg_id

/-- The `DELETE ... WHERE reg_id NOT IN (SELECT MIN(reg_id) ... GROUP BY
employee_no, event_id)` of `cleanup-duplicates.js`: keep exactly the rows
whose `reg_id` is some group's minimum. -/
def cleanupDuplicates (l : List RegRow) : List RegRow :=
  let minima := l.map (groupMinId l)
  l.filter (fun r => minima.contains r.reg_id)

/-- The storage state the migration acts on: the three entity tables, plus
the names of the installed uniqueness constraints. -/
structure DbState where
  registrations : List RegRow
  attendance : List AttRow
  evaluations : List EvalRow
  constraints : List String
deriving DecidableEq, Repr

/-- Name of the composite uniqueness constraint the migration installs. -/
def regUniqueConstraint : String :=
  "registrations_employee_no_event_id_unique"

/-- `cleanupDuplicates()` from `cleanup-duplicates.js`: delete the non-minimal
duplicates of the `registrations` table, drop the constraint if it exists,
and re-add it.  No other table is touched. -/
def runCleanupMigration (s : DbState) : DbState :=
  { s with
    registrations := cleanupDuplicates s.registrations
    constraints :=
      s.constraints.filter (fun c => c != regUniqueConstraint) ++ [regUniqueConstraint] }

/-! ### Write-time error mapping -/

/-- What the storage write inside a route handler can do. -/
inductive DbWrite where
  | ok
  | uniqueViolation
  | otherError
deriving DecidableEq, Repr, Fintype

/-- HTTP status of `POST /attendance`: pre-check hit → 409; otherwise the
`catch` maps `SequelizeUniqueConstraintError` to 409 and forwards anything
else to the error handler (a 500). -/
def attendanceCreateStatus (precheckDup : Bool) (w : DbWrite) : Nat :=
  if precheckDup then 409
  else match w with
    | .ok => 201
    | .uniqueViolation => 409
    | .otherError => 500

/-- HTTP status of `PUT /attendance/:id`: pre-check hit → 409; the `catch`
(lines 260-262) is bare `next(e)`, so every write-time error — the unique
violation included — goes to the error handler. -/
def attendanceUpdateStatus (precheckDup : Bool) (w : DbWrite) : Nat :=
  if precheckDup then 409
  else match w with
    | .ok => 200
    | .uniqueViolation => 500
    | .otherError => 500

/-- HTTP status of `POST /registrations` (catch maps the unique violation to
409, lines 151-153). -/
def registrationCreateStatus (precheckDup : Bool) (w : DbWrite) : Nat :=
  if precheckDup then 409
  else match w with
    | .ok => 201
    | .uniqueViolation => 409
    | .otherError => 500

/-- HTTP status of `PUT /registrations/:id` (bare `next(e)` catch). -/
def registrationUpdateStatus (precheckDup : Bool) (w : DbWrite) : Nat :=
  if precheckDup then 409
  else match w with
    | .ok => 200
    | .uniqueViolation => 500
    | .otherError => 500

/-- HTTP status of `POST /evaluations` (catch maps the unique violation to
409, part_002 lines 166-171). -/
def evaluationCreateStatus (precheckDup : Bool) (w : DbWrite) : Nat :=
  if precheckDup then 409
  else match w with
    | .ok => 201
    | .uniqueViolation => 409
    | .otherError => 500

/-- HTTP status of `PUT /evaluations/:id` (bare `next(e)` catch). -/
def evaluationUpdateStatus (precheckDup : Bool) (w : DbWrite) : Nat :=
  if precheckDup then 409
  else match w with
    | .ok => 200
    | .uniqueViolation => 500
    | .otherError => 500

/-! ### Helper lemmas -/

/-- A string with a nonempty prefix is nonempty. -/
theorem append_ne_empty_left (s t : String) (h : s ≠ "") : s ++ t ≠ "" := by
  intro he
  apply h
  apply String.ext
  have hd := congrArg String.data he
  rw [String.data_append] at hd
  simpa using (List.append_eq_nil.mp hd).1

/-- A fold of `Nat.min` is bounded by its seed. -/
theorem foldr_min_le_init (i : Nat) (xs : List Nat) : xs.foldr Nat.min i ≤ i := by
  induction xs with
  | nil => exact Nat.le_refl i
  | cons x xs ih =>
    exact Nat.le_trans (Nat.min_le_right x (xs.foldr Nat.min i)) ih

/-- A fold of `Nat.min` is bounded by every folded element. -/
theorem foldr_min_le_mem (i : Nat) (xs : List Nat) :
    ∀ x ∈ xs, xs.foldr Nat.min i ≤ x := by
  induction xs with
  | nil => intro x hx; cases hx
  | cons y ys ih =>
    intro x hx
    rcases List.mem_cons.mp hx with h | h
    · subst h; exact Nat.min_le_left x (ys.foldr Nat.min i)
    · exact Nat.le_trans (Nat.min_le_right y (ys.foldr Nat.min i)) (ih x h)

/-- A fold of `Nat.min` is attained: it is the seed or a folded element. -/
theorem foldr_min_attained (i : Nat) (xs : List Nat) :
    xs.foldr Nat.min i = i ∨ xs.foldr Nat.min i ∈ xs := by
  induction xs with
  | nil => exact Or.inl rfl
  | cons y ys ih =>
    have : Nat.min y (ys.foldr Nat.min i) = y ∨
        Nat.min y (ys.foldr Nat.min i) = ys.foldr Nat.min i := by
      rcases Nat.le_total y (ys.foldr Nat.min i) with hle | hle
      · exact Or.inl (Nat.min_eq_left hle)
      · exact Or.inr (Nat.min_eq_right hle)
    rcases this with h | h
    · exact Or.inr (by rw [List.foldr_cons, h]; exact List.mem_cons_self y ys)
    · rcases ih with h' | h'
      · exact Or.inl (by rw [List.foldr_cons, h, h'])
      · exact Or.inr (by rw [List.foldr_cons, h]; exact List.mem_cons_of_mem y h')

/-- The group minimum is bounded by the row's own id. -/
theorem groupMinId_le_self (l : List RegRow) (r : RegRow) :
    groupMinId l r ≤ r.reg_id :=
  foldr_min_le_init r.reg_id _

/-- The group minimum is bounded by every id in the group. -/
theorem groupMinId_le_group (l : List RegRow) (r s : RegRow) (hs : s ∈ l)
    (hk : regKey s = regKey r) : groupMinId l r ≤ s.reg_id := by
  apply foldr_min_le_mem
  apply List.mem_map_of_mem
  rw [List.mem_filter]
  exact ⟨hs, by simp [hk]⟩

/-- The group minimum is attained by a member of the group. -/
theorem groupMinId_attained (l : List RegRow) (r : RegRow) (hr : r ∈ l) :
    ∃ s ∈ l, regKey s = regKey r ∧ s.reg_id = groupMinId l r := by
  rcases foldr_min_attained r.reg_id
      ((l.filter (fun s => regKey s == regKey r)).map RegRow.reg_id) with h | h
  · exact ⟨r, hr, rfl, h.symm⟩
  · rcases List.mem_map.mp h with ⟨s, hsf, heq⟩
    rcases List.mem_filter.mp hsf with ⟨hsl, hkey⟩
    exact ⟨s, hsl, by simpa using hkey, heq⟩

/-- Under primary-key distinctness, `reg_id` determines the row. -/
theorem reg_id_injective (l : List RegRow)
    (hd : l.Pairwise (fun a b => a.reg_id ≠ b.reg_id)) :
    ∀ {s r : RegRow}, s ∈ l → r ∈ l → s.reg_id = r.reg_id → s = r := by
  intro s r hs hr hid
  by_contra hne
  exact List.Pairwise.forall (fun {_ _} h => Ne.symm h) hd hs hr hne hid

/-- Membership in the cleaned-up table: a row survives the
`DELETE ... NOT IN (SELECT MIN(reg_id) ... GROUP BY ...)` exactly when its id
is minimal within its own `(employee_no, event_id)` group. -/
theorem mem_cleanupDuplicates_iff (l : List RegRow)
    (hd : l.Pairwise (fun a b => a.reg_id ≠ b.reg_id))
    (r : RegRow) (hr : r ∈ l) :
    r ∈ cleanupDuplicates l ↔
      ∀ s ∈ l, regKey s = regKey r → r.reg_id ≤ s.reg_id := by
  unfold cleanupDuplicates
  constructor
  · intro hmem
    rcases List.mem_filter.mp hmem with ⟨-, hcon⟩
    have hidmem : r.reg_id ∈ l.map (groupMinId l) := by simpa using hcon
    rcases List.mem_map.mp hidmem with ⟨t, htl, hteq⟩
    rcases groupMinId_attained l t htl with ⟨s, hsl, hsk, hsid⟩
    have hsr : s = r := reg_id_injective l hd hsl hr (by rw [hsid, hteq])
    subst hsr
    intro u hul huk
    calc s.reg_id = groupMinId l t := by rw [hsid, hteq]
      _ ≤ u.reg_id := groupMinId_le_group l t u hul (by rw [huk, hsk])
  · intro hmin
    apply List.mem_filter.mpr
    refine ⟨hr, ?_⟩
    have hgm : groupMinId l r = r.reg_id := by
      apply Nat.le_antisymm (groupMinId_le_self l r)
      rcases groupMinId_attained l r hr with ⟨s, hsl, hsk, hsid⟩
      rw [← hsid]
      exact hmin s hsl hsk
    have : r.reg_id ∈ l.map (groupMinId l) := by
      rw [← hgm]
      exact List.mem_map_of_mem (groupMinId l) hr
    simpa using this

/-- Every survivor of the cleanup was a row of the original table. -/
theorem cleanupDuplicates_subset (l : List RegRow) (r : RegRow)
    (h : r ∈ cleanupDuplicates l) : r ∈ l := by
  unfold cleanupDuplicates at h
  exact (List.mem_filter.mp h).1

/-- After cleanup, no two distinct survivors share a group key. -/
theorem cleanupDuplicates_no_dup (l : List RegRow)
    (hd : l.Pairwise (fun a b => a.reg_id ≠ b.reg_id)) :
    ∀ r ∈ cleanupDuplicates l, ∀ t ∈ cleanupDuplicates l,
      regKey r = regKey t → r = t := by
  intro r hr t ht hk
  have hrl := cleanupDuplicates_subset l r hr
  have htl := cleanupDuplicates_subset l t ht
  have hrmin := (mem_cleanupDuplicates_iff l hd r hrl).mp hr
  have htmin := (mem_cleanupDuplicates_iff l hd t htl).mp ht
  have h1 : r.reg_id ≤ t.reg_id := hrmin t htl hk.symm
  have h2 : t.reg_id ≤ r.reg_id := htmin r hrl hk
  exact reg_id_injective l hd hrl htl (Nat.le_antisymm h1 h2)

/-- Survivor ids and keys are preserved, so a second cleanup deletes nothing. -/
theorem cleanupDuplicates_idem (l : List RegRow)
    (hd : l.Pairwise (fun a b => a.reg_id ≠ b.reg_id)) :
    cleanupDuplicates (cleanupDuplicates l) = cleanupDuplicates l := by
  set l' := cleanupDuplicates l with hl'
  have hsub : ∀ r ∈ l', r ∈ l := fun r hr => cleanupDuplicates_subset l r hr
  have hmin : ∀ r ∈ l', ∀ s ∈ l, regKey s = regKey r → r.reg_id ≤ s.reg_id :=
    fun r hr => (mem_cleanupDuplicates_iff l hd r (hsub r hr)).mp hr
  show cleanupDuplicates l' = l'
  unfold cleanupDuplicates
  apply List.filter_eq_self.mpr
  intro r hr
  have hgm : groupMinId l' r = r.reg_id := by
    apply Nat.le_antisymm (groupMinId_le_self l' r)
    rcases groupMinId_attained l' r hr with ⟨s, hsl', hsk, hsid⟩
    rw [← hsid]
    exact hmin r hr s (hsub s hsl') hsk
  have : r.reg_id ∈ l'.map (groupMinId l') := by
    rw [← hgm]
    exact List.mem_map_of_mem (groupMinId l') hr
  simpa using this


lemma attDecide_skipKeep_ne (events : List Event) (regs : List RegRow)
    (db : List AttRow) (seen : List String) (raw : RawAttRow) (rsn : String)
    (h : attDecide events regs db seen raw = .skipKeepSeen rsn) : rsn ≠ "" := by
  unfold attDecide at h
  dsimp only at h
  repeat' split at h
  all_goals first
    | (cases h; decide)
    | (cases h; (repeat' apply append_ne_empty_left); decide)
    | cases h

lemma attDecide_skipAdd_ne (events : List Event) (regs : List RegRow)
    (db : List AttRow) (seen : List String) (raw : RawAttRow) (rsn k : String)
    (h : attDecide events regs db seen raw = .skipAddSeen rsn k) : rsn ≠ "" := by
  unfold attDecide at h
  dsimp only at h
  repeat' split at h
  all_goals first
    | (cases h; decide)
    | (cases h; (repeat' apply append_ne_empty_left); decide)
    | cases h


lemma regDecide_skipKeep_ne (events : List Event) (db : List RegRow)
    (seen : List String) (raw : RawRegRow) (rsn : String)
    (h : regDecide events db seen raw = .skipKeepSeen rsn) : rsn ≠ "" := by
  unfold regDecide at h
  dsimp only at h
  repeat' split at h
  all_goals first
    | (cases h; decide)
    | (cases h; (repeat' apply append_ne_empty_left); decide)
    | cases h

lemma regDecide_not_skipAdd (events : List Event) (db : List RegRow)
    (seen : List String) (raw : RawRegRow) (rsn k : String) :
    regDecide events db seen raw ≠ .skipAddSeen rsn k := by
  intro h
  unfold regDecide at h
  dsimp only at h
  repeat' split at h
  all_goals cases h

lemma regDecide_insert_key (events : List Event) (db : List RegRow)
    (seen : List String) (raw : RawRegRow) (rec : RegRow) (k : String)
    (h : regDecide events db seen raw = .insert rec k) : k = regRecordKey rec := by
  unfold regDecide at h
  dsimp only at h
  repeat' split at h
  all_goals try contradiction
  all_goals try (cases h)
  all_goals simp_all [regRecordKey, keyWalkIn, keyByNumber, Option.getD]

lemma attDecide_NA_eq_empty (events : List Event) (regs : List RegRow)
    (db : List AttRow) (seen : List String) (raw : RawAttRow)
    (hna : jsTrim raw.employeeNo = "NA") :
    attDecide events regs db seen raw =
      attDecide events regs db seen
        { raw with employeeNo := "" } := by
  unfold attDecide
  dsimp only
  rw [hna]
  simp [show jsTrim "" = "" from by decide]

lemma attDecide_insert_NA (events : List Event) (regs : List RegRow)
    (db : List AttRow) (seen : List String) (raw : RawAttRow) (rec : AttRow) (k : String)
    (hna : jsTrim raw.employeeNo = "NA")
    (h : attDecide events regs db seen raw = .insert rec k) :
    rec.employee_no = none ∧ rec.validation_status = "Not Registered" := by
  unfold attDecide at h
  dsimp only at h
  rw [hna] at h
  simp only [show (if ("NA" : String) = "" then "NA" else "NA") = "NA" from by decide,
    show (("NA" : String) != "NA") = false from by decide,
    Bool.false_eq_true, if_false] at h
  repeat' split at h
  all_goals try (cases h)
  all_goals exact ⟨rfl, rfl⟩


lemma attStep_shape (events : List Event) (regs : List RegRow) (st : AttState)
    (raw : RawAttRow) :
    (∃ rsn, rsn ≠ "" ∧ attStep events regs st raw =
        { st with skipped := st.skipped ++ [(raw, rsn)] }) ∨
    (∃ rsn k, rsn ≠ "" ∧ attStep events regs st raw =
        { st with skipped := st.skipped ++ [(raw, rsn)], seen := st.seen ++ [k] }) ∨
    (∃ rec k, attStep events regs st raw =
        { st with db := st.db ++ [rec], created := st.created ++ [rec],
                  seen := st.seen ++ [k] }) := by
  cases h : attDecide events regs st.db st.seen raw with
  | skipKeepSeen rsn =>
    exact Or.inl ⟨rsn, attDecide_skipKeep_ne _ _ _ _ _ _ h, by unfold attStep; rw [h]; rfl⟩
  | skipAddSeen rsn k =>
    exact Or.inr (Or.inl ⟨rsn, k, attDecide_skipAdd_ne _ _ _ _ _ _ _ h,
      by unfold attStep; rw [h]; rfl⟩)
  | insert rec k =>
    exact Or.inr (Or.inr ⟨rec, k, by unfold attStep; rw [h]; rfl⟩)

lemma regStep_shape (events : List Event) (st : RegState) (raw : RawRegRow) :
    (∃ rsn, rsn ≠ "" ∧ regStep events st raw =
        { st with skipped := st.skipped ++ [(raw, rsn)] }) ∨
    (∃ rec, regStep events st raw =
        { st with db := st.db ++ [rec], created := st.created ++ [rec],
                  seen := st.seen ++ [regRecordKey rec] }) := by
  cases h : regDecide events st.db st.seen raw with
  | skipKeepSeen rsn =>
    exact Or.inl ⟨rsn, regDecide_skipKeep_ne _ _ _ _ _ h, by unfold regStep; rw [h]; rfl⟩
  | skipAddSeen rsn k =>
    exact absurd h (regDecide_not_skipAdd _ _ _ _ _ _)
  | insert rec k =>
    have hk := regDecide_insert_key _ _ _ _ _ _ h
    subst hk
    exact Or.inr ⟨rec, by unfold regStep; rw [h]; rfl⟩

lemma attRun_spec (events : List Event) (regs : List RegRow) :
    ∀ (rows : List RawAttRow) (st : AttState),
      ∃ recs skips keys,
        rows.foldl (attStep events regs) st =
          { db := st.db ++ recs, created := st.created ++ recs,
            skipped := st.skipped ++ skips, seen := st.seen ++ keys } ∧
        recs.length + skips.length = rows.length ∧
        ∀ x ∈ skips, x.2 ≠ "" := by
  intro rows
  induction rows with
  | nil =>
    intro st
    exact ⟨[], [], [], by simp, rfl, by simp⟩
  | cons raw rest ih =>
    intro st
    rcases attStep_shape events regs st raw with ⟨rsn, hne, h⟩ | ⟨rsn, k, hne, h⟩ | ⟨rec, k, h⟩
    · rw [List.foldl_cons, h]
      rcases ih _ with ⟨recs, skips, keys, hst, hlen, hsk⟩
      refine ⟨recs, (raw, rsn) :: skips, keys, ?_, ?_, ?_⟩
      · rw [hst]; simp
      · simp only [List.length_cons]; omega
      · intro x hx
        rcases List.mem_cons.mp hx with h' | h'
        · subst h'; exact hne
        · exact hsk x h'
    · rw [List.foldl_cons, h]
      rcases ih _ with ⟨recs, skips, keys, hst, hlen, hsk⟩
      refine ⟨recs, (raw, rsn) :: skips, k :: keys, ?_, ?_, ?_⟩
      · rw [hst]; simp
      · simp only [List.length_cons]; omega
      · intro x hx
        rcases List.mem_cons.mp hx with h' | h'
        · subst h'; exact hne
        · exact hsk x h'
    · rw [List.foldl_cons, h]
      rcases ih _ with ⟨recs, skips, keys, hst, hlen, hsk⟩
      refine ⟨rec :: recs, skips, k :: keys, ?_, ?_, ?_⟩
      · rw [hst]; simp
      · simp only [List.length_cons]; omega
      · exact hsk

lemma regRun_spec (events : List Event) :
    ∀ (rows : List RawRegRow) (st : RegState),
      ∃ recs skips,
        rows.foldl (regStep events) st =
          { db := st.db ++ recs, created := st.created ++ recs,
            skipped := st.skipped ++ skips,
            seen := st.seen ++ recs.map regRecordKey } ∧
        recs.length + skips.length = rows.length ∧
        ∀ x ∈ skips, x.2 ≠ "" := by
  intro rows
  induction rows with
  | nil =>
    intro st
    exact ⟨[], [], by simp, rfl, by simp⟩
  | cons raw rest ih =>
    intro st
    rcases regStep_shape events st raw with ⟨rsn, hne, h⟩ | ⟨rec, h⟩
    · rw [List.foldl_cons, h]
      rcases ih _ with ⟨recs, skips, hst, hlen, hsk⟩
      refine ⟨recs, (raw, rsn) :: skips, ?_, ?_, ?_⟩
      · rw [hst]; simp
      · simp only [List.length_cons]; omega
      · intro x hx
        rcases List.mem_cons.mp hx with h' | h'
        · subst h'; exact hne
        · exact hsk x h'
    · rw [List.foldl_cons, h]
      rcases ih _ with ⟨recs, skips, hst, hlen, hsk⟩
      refine ⟨rec :: recs, skips, ?_, ?_, ?_⟩
      · rw [hst]; simp
      · simp only [List.length_cons]; omega
      · exact hsk


lemma ratingOk_NA (f : String) : ratingOk f "NA" = true := by
  unfold ratingOk
  simp

lemma checkRatings_none_of_ok (row : String → String) :
    ∀ fields : List (String × String),
      (∀ cf ∈ fields, ratingOk cf.2 (normCell (row cf.1)) = true) →
      checkRatings fields row = none := by
  intro fields
  induction fields with
  | nil => intro _; rfl
  | cons cf rest ih =>
    obtain ⟨col, field⟩ := cf
    intro hall
    unfold checkRatings
    rw [if_pos (hall (col, field) (List.mem_cons_self _ _))]
    exact ih (fun cf hcf => hall cf (List.mem_cons_of_mem _ hcf))

lemma checkRatings_some_spec (row : String → String) :
    ∀ (fields : List (String × String)) (f v : String),
      checkRatings fields row = some (f, v) →
      ∃ cf ∈ fields, cf.2 = f ∧ normCell (row cf.1) = v ∧ ratingOk f v = false := by
  intro fields
  induction fields with
  | nil => intro f v h; cases h
  | cons cf rest ih =>
    obtain ⟨col, field⟩ := cf
    intro f v h
    unfold checkRatings at h
    dsimp only at h
    split at h
    · rcases ih f v h with ⟨cf, hcf, h1, h2, h3⟩
      exact ⟨cf, List.mem_cons_of_mem _ hcf, h1, h2, h3⟩
    · have hp := Option.some.inj h
      have hf : field = f := congrArg Prod.fst hp
      have hv : normCell (row col) = v := congrArg Prod.snd hp
      rename_i hcond
      refine ⟨(col, field), List.mem_cons_self _ _, hf, hv, ?_⟩
      rw [← hf, ← hv]
      exact (Bool.not_eq_true _) ▸ hcond


lemma attDupMatch_eq_true_iff (finalNo finalName : Option String) (eventId : Nat)
    (r : AttRow) :
    attDupMatch finalNo finalName eventId r = true ↔
      r.event_id = eventId ∧
        ((∃ n, finalNo = some n ∧ r.employee_no = some n) ∨
         (∃ nm, finalName = some nm ∧
            r.employee_name.map jsLower = some (jsLower nm))) := by
  unfold attDupMatch
  cases finalNo <;> cases finalName <;>
    simp [Bool.and_eq_true, Bool.or_eq_true, And.comm]

lemma regDupMatch_eq_true_iff (finalNo : Option String) (name : String)
    (eventId : Nat) (r : RegRow) :
    regDupMatch finalNo name eventId r = true ↔
      r.event_id = eventId ∧
        ((∃ n, finalNo = some n ∧ r.employee_no = some n) ∨
         r.employee_name.map jsLower = some (jsLower name)) := by
  unfold regDupMatch
  cases finalNo <;> simp [Bool.and_eq_true, Bool.or_eq_true, And.comm]

lemma attendanceCreate_created_inv (eno ename dept : Option String)
    (mode : String) (eventId : Nat) (db : List AttRow) (regs : List RegRow)
    (row : AttRow) (db' : List AttRow)
    (h : attendanceCreate eno ename dept mode eventId db regs = (.createdOk row, db')) :
    db' = db ++ [row] ∧ row.employee_no = trimToNull eno ∧
      row.employee_name = trimToNull ename ∧ row.event_id = eventId := by
  unfold attendanceCreate at h
  dsimp only at h
  split at h
  · simp at h
  · split at h
    · simp at h
    · simp only [Prod.mk.injEq, CreateOutcome.createdOk.injEq] at h
      obtain ⟨hrow, hdb⟩ := h
      subst hrow
      subst hdb
      exact ⟨rfl, rfl, rfl, rfl⟩

lemma registrationCreate_created_inv (eno : Option String) (ename : String)
    (dept : Option String) (eventId : Nat) (db : List RegRow)
    (row : RegRow) (db' : List RegRow)
    (h : registrationCreate eno ename dept eventId db = (.createdOk row, db')) :
    db' = db ++ [row] ∧ row.employee_no = trimToNull eno ∧
      row.employee_name = some (jsTrim ename) ∧ row.event_id = eventId := by
  unfold registrationCreate at h
  dsimp only at h
  split at h
  · simp at h
  · simp only [Prod.mk.injEq, CreateOutcome.createdOk.injEq] at h
    obtain ⟨hrow, hdb⟩ := h
    subst hrow
    subst hdb
    exact ⟨rfl, rfl, rfl, rfl⟩

lemma evaluationCreate_created_inv (eno : Option String) (ename : String)
    (eventId : Nat) (rats : List (String × String)) (db : List EvalRow)
    (row : EvalRow) (db' : List EvalRow)
    (h : evaluationCreate eno ename eventId rats db = (.createdOk row, db')) :
    db' = db ++ [row] ∧ row.employee_no = trimToNull eno ∧
      row.employee_name = jsTrim ename ∧ row.event_id = eventId := by
  unfold evaluationCreate at h
  dsimp only at h
  split at h
  · simp at h
  · simp only [Prod.mk.injEq, CreateOutcome.createdOk.injEq] at h
    obtain ⟨hrow, hdb⟩ := h
    subst hrow
    subst hdb
    exact ⟨rfl, rfl, rfl, rfl⟩

lemma attDupCheck_none_none (eventId : Nat) (db : List AttRow) :
    attDupCheck none none eventId db = none := by
  unfold attDupCheck
  apply List.find?_eq_none.mpr
  intro r _
  unfold attDupMatch
  simp

lemma attendanceCreate_conflict_of_dup (eno ename dept : Option String)
    (mode : String) (eventId : Nat) (db : List AttRow) (regs : List RegRow)
    (hdup : (attDupCheck (trimToNull eno) (trimToNull ename) eventId db).isSome = true) :
    (attendanceCreate eno ename dept mode eventId db regs).fst.isConflict = true := by
  unfold attendanceCreate
  dsimp only
  rcases Option.isSome_iff_exists.mp hdup with ⟨x, hx⟩
  by_cases hcond : trimToNull eno = none ∧ trimToNull ename = none
  · rw [hcond.1, hcond.2, attDupCheck_none_none] at hx
    cases hx
  · rw [if_neg hcond, hx]
    rfl

lemma registrationCreate_conflict_of_dup (eno : Option String) (ename : String)
    (dept : Option String) (eventId : Nat) (db : List RegRow)
    (hdup : (regDupCheck (trimToNull eno) (jsTrim ename) eventId db).isSome = true) :
    (registrationCreate eno ename dept eventId db).fst.isConflict = true := by
  unfold registrationCreate
  dsimp only
  rcases Option.isSome_iff_exists.mp hdup with ⟨x, hx⟩
  rw [hx]
  rfl

lemma evaluationCreate_created_of_nodup (eno : Option String) (ename : String)
    (eventId : Nat) (rats : List (String × String)) (db : List EvalRow)
    (hnone : evalDupCheck (trimToNull eno) (jsTrim ename) eventId db = none) :
    (evaluationCreate eno ename eventId rats db).fst.isCreated = true := by
  unfold evaluationCreate
  dsimp only
  rw [hnone]
  rfl


lemma jsLower_eq_empty_iff (s : String) : jsLower s = "" ↔ s = "" := by
  unfold jsLower
  constructor
  · intro h
    apply String.ext
    have hd := congrArg String.data h
    simpa using hd
  · intro h
    subst h
    rfl

/-! ### Claim theorems -/

/-- C1, counterexample: the claim says that for a `ByNumber(n)` identity the
Duplicate Guard reports a duplicate iff a stored record has the same
`event_id` and `employee_no = n`, the stored name playing no role.  Refuted:
`POST /attendance` with employee number `"E002"` and name `"Jane Doe"` is
rejected as a duplicate (409) although no stored row has
`employee_no = "E002"` — the stored row is matched by its lowercased name. -/
theorem c1_counterexample :
    ((attendanceCreate (some "E002") (some "Jane Doe") none "Onsite" 1
        [⟨1, some "E001", some "Jane Doe", none, "Onsite", "Registered", 1⟩]
        []).fst).isConflict = true ∧
    ([⟨1, some "E001", some "Jane Doe", none, "Onsite", "Registered", 1⟩] :
        List AttRow).all (fun r => r.employee_no != some "E002") = true :=
  ⟨by decide, by decide⟩

/-- C1, amended: for a `ByNumber(n)` identity the create-path Duplicate Guard
(attendance and registrations) reports a duplicate iff a stored record of the
same kind has the same `event_id` and **either** `employee_no = n` **or** —
when an employee name is also submitted — a stored `employee_name` whose
lowercasing equals the submitted name's lowercasing; the stored name does
take part in the match. -/
theorem c1_amended (n : String) (name : Option String) (eventId : Nat)
    (adb : List AttRow) (rname : String) (rdb : List RegRow) :
    ((attDupCheck (some n) name eventId adb).isSome = true ↔
      ∃ r ∈ adb, r.event_id = eventId ∧
        (r.employee_no = some n ∨
          ∃ nm, name = some nm ∧ r.employee_name.map jsLower = some (jsLower nm))) ∧
    ((regDupCheck (some n) rname eventId rdb).isSome = true ↔
      ∃ r ∈ rdb, r.event_id = eventId ∧
        (r.employee_no = some n ∨
          r.employee_name.map jsLower = some (jsLower rname))) := by
  constructor
  · rw [attDupCheck, List.find?_isSome]
    constructor
    · rintro ⟨r, hr, hpr⟩
      rcases (attDupMatch_eq_true_iff _ _ _ _).mp hpr with ⟨hev, hor⟩
      refine ⟨r, hr, hev, ?_⟩
      rcases hor with ⟨n', hn', hno⟩ | ⟨nm, hnm, hname⟩
      · cases Option.some.inj hn'
        exact Or.inl hno
      · exact Or.inr ⟨nm, hnm, hname⟩
    · rintro ⟨r, hr, hev, hor⟩
      refine ⟨r, hr, (attDupMatch_eq_true_iff _ _ _ _).mpr ⟨hev, ?_⟩⟩
      rcases hor with hno | ⟨nm, hnm, hname⟩
      · exact Or.inl ⟨n, rfl, hno⟩
      · exact Or.inr ⟨nm, hnm, hname⟩
  · rw [regDupCheck, List.find?_isSome]
    constructor
    · rintro ⟨r, hr, hpr⟩
      rcases (regDupMatch_eq_true_iff _ _ _ _).mp hpr with ⟨hev, hor⟩
      refine ⟨r, hr, hev, ?_⟩
      rcases hor with ⟨n', hn', hno⟩ | hname
      · cases Option.some.inj hn'
        exact Or.inl hno
      · exact Or.inr hname
    · rintro ⟨r, hr, hev, hor⟩
      refine ⟨r, hr, (regDupMatch_eq_true_iff _ _ _ _).mpr ⟨hev, ?_⟩⟩
      rcases hor with hno | hname
      · exact Or.inl ⟨n, rfl, hno⟩
      · exact Or.inr hname

/-- C2, counterexample: the claim says walk-in submissions whose names differ
only in case collide for every entity kind.  Refuted for evaluations: a
walk-in evaluation for `"Jane Doe"` and then one for `"jane doe"` at the same
event are **both** accepted, because `POST /evaluations` compares the stored
`employee_name` exactly, not lowercased. -/
theorem c2_counterexample :
    (evaluationCreate none "Jane Doe" 1 [] []).fst.isCreated = true ∧
    (evaluationCreate none "jane doe" 1 []
        (evaluationCreate none "Jane Doe" 1 [] []).snd).fst.isCreated = true ∧
    jsLower "Jane Doe" = jsLower "jane doe" :=
  ⟨by decide, by decide, by decide⟩

/-- C2, amended: for Registration and Attendance creation, two walk-in
submissions for the same event whose names agree after lowercasing do
collide — the first is accepted and the second draws the 409 conflict.  For
Evaluation creation the stored-name comparison is exact, so a second walk-in
whose name is a different string (even one differing only in case) is
accepted whenever no stored row carries that exact name for the event. -/
theorem c2_amended :
    (∀ (nm1 nm2 : String) (d1 d2 : Option String) (m1 m2 : String) (eid : Nat)
       (db : List AttRow) (regs1 regs2 : List RegRow) (row : AttRow)
       (db1 : List AttRow),
       jsTrim nm1 ≠ "" →
       jsLower (jsTrim nm1) = jsLower (jsTrim nm2) →
       attendanceCreate none (some nm1) d1 m1 eid db regs1 = (.createdOk row, db1) →
       (attendanceCreate none (some nm2) d2 m2 eid db1 regs2).fst.isConflict = true) ∧
    (∀ (nm1 nm2 : String) (d1 d2 : Option String) (eid : Nat)
       (db : List RegRow) (row : RegRow) (db1 : List RegRow),
       jsLower (jsTrim nm1) = jsLower (jsTrim nm2) →
       registrationCreate none nm1 d1 eid db = (.createdOk row, db1) →
       (registrationCreate none nm2 d2 eid db1).fst.isConflict = true) ∧
    (∀ (nm1 nm2 : String) (eid : Nat) (db : List EvalRow)
       (rats1 rats2 : List (String × String)) (row : EvalRow) (db1 : List EvalRow),
       jsTrim nm1 ≠ jsTrim nm2 →
       (∀ r ∈ db, ¬(r.event_id = eid ∧ r.employee_name = jsTrim nm2)) →
       evaluationCreate none nm1 eid rats1 db = (.createdOk row, db1) →
       (evaluationCreate none nm2 eid rats2 db1).fst.isCreated = true) := by
  refine ⟨?_, ?_, ?_⟩
  · intro nm1 nm2 d1 d2 m1 m2 eid db regs1 regs2 row db1 h1 hlow hcr
    have htrim2 : jsTrim nm2 ≠ "" := by
      intro he
      apply h1
      rw [← jsLower_eq_empty_iff]
      rw [hlow, he]
      rfl
    rcases attendanceCreate_created_inv _ _ _ _ _ _ _ _ _ hcr with ⟨hdb1, -, hname, hev⟩
    apply attendanceCreate_conflict_of_dup
    rw [attDupCheck, List.find?_isSome]
    refine ⟨row, ?_, ?_⟩
    · rw [hdb1]
      exact List.mem_append_right _ (List.mem_singleton.mpr rfl)
    · apply (attDupMatch_eq_true_iff _ _ _ _).mpr
      refine ⟨hev, Or.inr ⟨jsTrim nm2, ?_, ?_⟩⟩
      · show trimToNull (some nm2) = some (jsTrim nm2)
        simp [trimToNull, htrim2]
      · rw [hname]
        show (trimToNull (some nm1)).map jsLower = some (jsLower (jsTrim nm2))
        simp [trimToNull, h1, hlow]
  · intro nm1 nm2 d1 d2 eid db row db1 hlow hcr
    rcases registrationCreate_created_inv _ _ _ _ _ _ _ hcr with ⟨hdb1, -, hname, hev⟩
    apply registrationCreate_conflict_of_dup
    rw [regDupCheck, List.find?_isSome]
    refine ⟨row, ?_, ?_⟩
    · rw [hdb1]
      exact List.mem_append_right _ (List.mem_singleton.mpr rfl)
    · apply (regDupMatch_eq_true_iff _ _ _ _).mpr
      refine ⟨hev, Or.inr ?_⟩
      rw [hname]
      simp [hlow]
  · intro nm1 nm2 eid db rats1 rats2 row db1 hne hdb hcr
    rcases evaluationCreate_created_inv _ _ _ _ _ _ _ hcr with ⟨hdb1, -, hname, hev⟩
    apply evaluationCreate_created_of_nodup
    unfold evalDupCheck
    apply List.find?_eq_none.mpr
    intro r hr
    rw [hdb1] at hr
    rcases List.mem_append.mp hr with h' | h'
    · intro hc
      apply hdb r h'
      simpa [evalDupMatch, trimToNull] using hc
    · have hrr : r = row := List.mem_singleton.mp h'
      subst hrr
      intro hc
      have hc' : r.event_id = eid ∧ r.employee_name = jsTrim nm2 := by
        simpa [evalDupMatch, trimToNull] using hc
      rw [hname] at hc'
      exact hne hc'.2

/-- Witness for C2's amended theorem at a concrete input: after a walk-in
attendance for `"Jane Doe"` at event 1, the walk-in `"jane doe"` draws the
409 conflict. -/
theorem c2_witness :
    (attendanceCreate none (some "jane doe") none "Onsite" 1
        [⟨1, none, some "Jane Doe", none, "Onsite", "Not Registered", 1⟩]
        []).fst.isConflict = true :=
  c2_amended.1 "Jane Doe" "jane doe" none none "Onsite" "Onsite" 1 [] [] []
    ⟨1, none, some "Jane Doe", none, "Onsite", "Not Registered", 1⟩
    [⟨1, none, some "Jane Doe", none, "Onsite", "Not Registered", 1⟩]
    (by decide) (by decide) (by decide)


/-- C3: a bulk-import row failure never aborts the batch.  For both the
attendance and registration uploads, every input row ends up accounted for —
inserted count plus skipped count equals the number of rows — the reported
inserted records are exactly what was appended to storage, in file order,
and every skipped row carries a nonempty reason. -/
theorem c3_import_row_isolation (events : List Event) (regs : List RegRow)
    (adb : List AttRow) (arows : List RawAttRow)
    (rdb : List RegRow) (rrows : List RawRegRow) :
    ((attUpload events regs adb arows).created.length +
        (attUpload events regs adb arows).skipped.length = arows.length ∧
     (attUpload events regs adb arows).db =
        adb ++ (attUpload events regs adb arows).created ∧
     ∀ x ∈ (attUpload events regs adb arows).skipped, x.2 ≠ "") ∧
    ((regUpload events rdb rrows).created.length +
        (regUpload events rdb rrows).skipped.length = rrows.length ∧
     (regUpload events rdb rrows).db =
        rdb ++ (regUpload events rdb rrows).created ∧
     ∀ x ∈ (regUpload events rdb rrows).skipped, x.2 ≠ "") := by
  constructor
  · unfold attUpload
    rcases attRun_spec events regs arows ⟨adb, [], [], []⟩ with
      ⟨recs, skips, keys, hst, hlen, hsk⟩
    rw [hst]
    exact ⟨by simpa using hlen, by simp, by simpa using hsk⟩
  · unfold regUpload
    rcases regRun_spec events rrows ⟨rdb, [], [], []⟩ with
      ⟨recs, skips, hst, hlen, hsk⟩
    rw [hst]
    exact ⟨by simpa using hlen, by simp, by simpa using hsk⟩

/-- Witness for C3 at a concrete one-row upload: the row is accounted for. -/
theorem c3_witness :
    (attUpload [⟨1, "Party"⟩] [] [] [⟨"E001", "Jane", "", "Onsite", "Party"⟩]).created.length +
      (attUpload [⟨1, "Party"⟩] [] [] [⟨"E001", "Jane", "", "Onsite", "Party"⟩]).skipped.length = 1 :=
  (c3_import_row_isolation [⟨1, "Party"⟩] [] []
    [⟨"E001", "Jane", "", "Onsite", "Party"⟩] [] []).1.1

/-- C4, counterexample: the claim says every create **or update** maps a
write-time unique-constraint violation to the same 409 `DuplicateFound`
outcome.  Refuted for `PUT /attendance/:id`: its `catch` is a bare `next(e)`,
so a unique-constraint violation at write time surfaces through the error
handler (a 500), not as a 409. -/
theorem c4_counterexample :
    attendanceUpdateStatus false DbWrite.uniqueViolation = 500 ∧
    ¬ attendanceUpdateStatus false DbWrite.uniqueViolation = 409 := by
  decide

/-- C4, amended: the three **create** routes respond 409 exactly when the
pre-check hit or the write raised the unique-constraint violation — the two
causes are one error class there; the three **update** routes respond 409
only on a pre-check hit, and forward every write-time error, the unique
violation included, to the error handler. -/
theorem c4_amended :
    ∀ (p : Bool) (w : DbWrite),
      (attendanceCreateStatus p w = 409 ↔ (p = true ∨ w = DbWrite.uniqueViolation)) ∧
      (registrationCreateStatus p w = 409 ↔ (p = true ∨ w = DbWrite.uniqueViolation)) ∧
      (evaluationCreateStatus p w = 409 ↔ (p = true ∨ w = DbWrite.uniqueViolation)) ∧
      (attendanceUpdateStatus p w = 409 ↔ p = true) ∧
      (registrationUpdateStatus p w = 409 ↔ p = true) ∧
      (evaluationUpdateStatus p w = 409 ↔ p = true) := by
  decide

/-- C5, counterexample: the claim says `ByNumber(n)` computes `Registered`
exactly when a matching Registration row exists.  Refuted at `n = "NA"`: a
Registration row with `employee_no = "NA"` and the right event exists, yet
`computeValidationStatus` answers `Not Registered`, because the string
`"NA"` is short-circuited as the no-number sentinel. -/
theorem c5_counterexample :
    computeValidationStatus (some "NA") 1
      [⟨1, some "NA", some "Walkin Guest", none, 1⟩] = "Not Registered" ∧
    ([⟨1, some "NA", some "Walkin Guest", none, 1⟩] : List RegRow).any
      (fun r => r.employee_no == some "NA" && r.event_id == 1) = true :=
  ⟨by decide, by decide⟩

/-- C5, amended: a walk-in (no employee number) always computes
`Not Registered`, whatever Registration rows exist; a supplied number `n`
that is neither empty nor the sentinel `"NA"` computes `Registered` iff a
Registration row matches `n` and the event; and the sentinel `"NA"` always
computes `Not Registered`, even when a Registration row stores `"NA"`. -/
theorem c5_amended (eventId : Nat) (regs : List RegRow) (n : String)
    (hne : n ≠ "") (hna : n ≠ "NA") :
    computeValidationStatus none eventId regs = "Not Registered" ∧
    computeValidationStatus (some "NA") eventId regs = "Not Registered" ∧
    (computeValidationStatus (some n) eventId regs = "Registered" ↔
      ∃ r ∈ regs, r.employee_no = some n ∧ r.event_id = eventId) := by
  refine ⟨rfl, rfl, ?_⟩
  unfold computeValidationStatus
  dsimp only
  have hcond : ¬(n = "" ∨ n = "NA") := by
    intro hor
    rcases hor with h | h
    · exact hne h
    · exact hna h
  rw [if_neg hcond]
  by_cases hany : (regs.any
      (fun r => r.employee_no == some n && r.event_id == eventId)) = true
  · rw [if_pos hany]
    constructor
    · intro _
      rcases List.any_eq_true.mp hany with ⟨r, hr, hpr⟩
      have hpr' : r.employee_no = some n ∧ r.event_id = eventId := by
        simpa using hpr
      exact ⟨r, hr, hpr'⟩
    · intro _
      rfl
  · rw [if_neg hany]
    constructor
    · intro habs
      exact absurd habs (by decide)
    · rintro ⟨r, hr, h1, h2⟩
      exfalso
      apply hany
      exact List.any_eq_true.mpr ⟨r, hr, by simp [h1, h2]⟩

/-- Witness for C5's amended theorem: a registered number computes
`Registered`, a walk-in computes `Not Registered`. -/
theorem c5_witness :
    computeValidationStatus none 7 [⟨1, some "E001", some "A", none, 7⟩] = "Not Registered" ∧
    computeValidationStatus (some "E001") 7 [⟨1, some "E001", some "A", none, 7⟩] = "Registered" := by
  have h := c5_amended 7 [⟨1, some "E001", some "A", none, 7⟩] "E001"
    (by decide) (by decide)
  exact ⟨h.1, h.2.2.mpr ⟨⟨1, some "E001", some "A", none, 7⟩, by simp, rfl, rfl⟩⟩

/-- C6, counterexample: the claim says the reconciliation migration cleans up
duplicates and installs the `(employee_no, event_id)` constraint for
Registration, Attendance, and Evaluation alike.  Refuted: on a state whose
attendance table holds two rows with the same `(employee_no, event_id)`, the
migration leaves the attendance table untouched and installs only the
registrations constraint. -/
theorem c6_counterexample :
    (runCleanupMigration
        ⟨[], [⟨1, some "E1", some "A", none, "Onsite", "Not Registered", 7⟩,
              ⟨2, some "E1", some "B", none, "Onsite", "Not Registered", 7⟩], [], []⟩).attendance =
      [⟨1, some "E1", some "A", none, "Onsite", "Not Registered", 7⟩,
       ⟨2, some "E1", some "B", none, "Onsite", "Not Registered", 7⟩] ∧
    (runCleanupMigration
        ⟨[], [⟨1, some "E1", some "A", none, "Onsite", "Not Registered", 7⟩,
              ⟨2, some "E1", some "B", none, "Onsite", "Not Registered", 7⟩], [], []⟩).constraints =
      [regUniqueConstraint] :=
  ⟨by decide, by decide⟩

/-- C6, amended: the migration performs duplicate cleanup and installs the
`(employee_no, event_id)` uniqueness constraint for **Registration only**:
attendance and evaluations are untouched, the registrations constraint is
present afterwards, and the surviving registrations carry pairwise distinct
`(employee_no, event_id)` keys. -/
theorem c6_amended (s : DbState)
    (hd : s.registrations.Pairwise (fun a b => a.reg_id ≠ b.reg_id)) :
    (runCleanupMigration s).attendance = s.attendance ∧
    (runCleanupMigration s).evaluations = s.evaluations ∧
    regUniqueConstraint ∈ (runCleanupMigration s).constraints ∧
    (runCleanupMigration s).registrations = cleanupDuplicates s.registrations ∧
    ∀ r ∈ (runCleanupMigration s).registrations,
      ∀ t ∈ (runCleanupMigration s).registrations, regKey r = regKey t → r = t := by
  refine ⟨rfl, rfl, ?_, rfl, ?_⟩
  · unfold runCleanupMigration
    simp
  · intro r hr t ht hk
    exact cleanupDuplicates_no_dup s.registrations hd r hr t ht hk

/-- Witness for C6's amended theorem at a duplicated-registrations state. -/
theorem c6_witness :
    (runCleanupMigration
        ⟨[⟨1, some "E1", some "A", none, 7⟩, ⟨2, some "E1", some "B", none, 7⟩],
         [], [], []⟩).attendance = [] :=
  (c6_amended
    ⟨[⟨1, some "E1", some "A", none, 7⟩, ⟨2, some "E1", some "B", none, 7⟩],
     [], [], []⟩ (by decide)).1

/-- C7: under primary-key distinctness, `cleanup_duplicates` keeps exactly
the smallest-`reg_id` member of every `(employee_no, event_id)` group — a row
survives iff its id is minimal in its own group — and the cleanup is
idempotent: a second run is the identity on the cleaned table. -/
theorem c7_cleanup_min_idempotent (l : List RegRow)
    (hd : l.Pairwise (fun a b => a.reg_id ≠ b.reg_id)) :
    (∀ r ∈ l, (r ∈ cleanupDuplicates l ↔
        ∀ s ∈ l, regKey s = regKey r → r.reg_id ≤ s.reg_id)) ∧
    cleanupDuplicates (cleanupDuplicates l) = cleanupDuplicates l :=
  ⟨fun r hr => mem_cleanupDuplicates_iff l hd r hr, cleanupDuplicates_idem l hd⟩

/-- Witness for C7 at the spec's own example — ids 10, 11, 12 sharing one
key: idempotence holds there. -/
theorem c7_witness :
    cleanupDuplicates (cleanupDuplicates
        [⟨10, some "E1", some "A", none, 7⟩, ⟨11, some "E1", some "A", none, 7⟩,
         ⟨12, some "E1", some "A", none, 7⟩]) =
      cleanupDuplicates
        [⟨10, some "E1", some "A", none, 7⟩, ⟨11, some "E1", some "A", none, 7⟩,
         ⟨12, some "E1", some "A", none, 7⟩] :=
  (c7_cleanup_min_idempotent
    [⟨10, some "E1", some "A", none, 7⟩, ⟨11, some "E1", some "A", none, 7⟩,
     ⟨12, some "E1", some "A", none, 7⟩] (by decide)).2

/-- C8, counterexample: the claim says a row skipped by the storage duplicate
check leaves the per-import seen set unchanged.  Refuted for the attendance
upload: a single row that duplicates a stored attendance is skipped (nothing
created), yet its key `"E001_1"` was already recorded in the seen set,
because `seen.set` runs before the storage check. -/
theorem c8_counterexample :
    (attUpload [⟨1, "Party"⟩] []
        [⟨1, some "E001", some "Jane", none, "Onsite", "Not Registered", 1⟩]
        [⟨"E001", "Jane", "", "Onsite", "Party"⟩]).created = [] ∧
    (attUpload [⟨1, "Party"⟩] []
        [⟨1, some "E001", some "Jane", none, "Onsite", "Not Registered", 1⟩]
        [⟨"E001", "Jane", "", "Onsite", "Party"⟩]).seen = ["E001_1"] :=
  ⟨by decide, by decide⟩

/-- C8, amended: the invariant holds for the **registrations** upload, where
`seen.set` runs after the storage check and immediately before the insert:
at the end of any registrations import the seen set is exactly the list of
keys of the rows inserted in this batch, in order.  (The attendance upload
records the key before its storage check, so there a storage-skipped row
still enters the seen set.) -/
theorem c8_amended (events : List Event) (db : List RegRow)
    (rows : List RawRegRow) :
    (regUpload events db rows).seen =
      (regUpload events db rows).created.map regRecordKey := by
  unfold regUpload
  rcases regRun_spec events rows ⟨db, [], [], []⟩ with ⟨recs, skips, hst, -, -⟩
  rw [hst]
  simp

/-- C9: in the attendance upload, a row whose Employee No cell reads `"NA"`
is processed identically (storage, created list, seen set, and skip reasons)
to the same row with an empty Employee No cell, and any row it inserts is a
walk-in record: `employee_no = null` and validation status `Not Registered`.
An employee whose genuine number is the string `"NA"` can therefore never be
recorded by number through the upload. -/
theorem c9_na_sentinel (events : List Event) (regs : List RegRow)
    (st : AttState) (raw : RawAttRow) (hna : jsTrim raw.employeeNo = "NA") :
    ((attStep events regs st raw).db =
        (attStep events regs st { raw with employeeNo := "" }).db ∧
     (attStep events regs st raw).created =
        (attStep events regs st { raw with employeeNo := "" }).created ∧
     (attStep events regs st raw).seen =
        (attStep events regs st { raw with employeeNo := "" }).seen ∧
     (attStep events regs st raw).skipped.map Prod.snd =
        (attStep events regs st { raw with employeeNo := "" }).skipped.map Prod.snd) ∧
    (∀ r ∈ (attStep events regs st raw).db,
      r ∈ st.db ∨ (r.employee_no = none ∧ r.validation_status = "Not Registered")) := by
  constructor
  · unfold attStep
    rw [← attDecide_NA_eq_empty events regs st.db st.seen raw hna]
    cases attDecide events regs st.db st.seen raw <;> simp [attApply]
  · intro r hr
    unfold attStep at hr
    cases h : attDecide events regs st.db st.seen raw with
    | skipKeepSeen rsn =>
      rw [h] at hr
      exact Or.inl hr
    | skipAddSeen rsn k =>
      rw [h] at hr
      exact Or.inl hr
    | insert rec k =>
      rw [h] at hr
      rcases List.mem_append.mp hr with h' | h'
      · exact Or.inl h'
      · have hrr : r = rec := List.mem_singleton.mp h'
        subst hrr
        exact Or.inr (attDecide_insert_NA events regs st.db st.seen raw r k hna h)

/-- Witness for C9: with the cell literally `"NA"`, the post-step storage
equals the storage produced by an empty cell. -/
theorem c9_witness :
    (attStep [⟨1, "Party"⟩] [] ⟨[], [], [], []⟩
        ⟨"NA", "Guest", "", "Onsite", "Party"⟩).db =
      (attStep [⟨1, "Party"⟩] [] ⟨[], [], [], []⟩
        ⟨"", "Guest", "", "Onsite", "Party"⟩).db :=
  (c9_na_sentinel [⟨1, "Party"⟩] [] ⟨[], [], [], []⟩
    ⟨"NA", "Guest", "", "Onsite", "Party"⟩ (by decide)).1.1

/-- C10: in the evaluation upload's rating validation, an empty cell defaults
to `"NA"` and is accepted, and a row is only skipped for a cell that is
nonempty and whose normalized value lies outside `{1,2,3,4,5,NA}` — for the
Session Helpful field, also outside the case-insensitive `{Yes,No}`;
when every cell normalizes to an accepted value the row passes. -/
theorem c10_rating_validation (row : String → String) :
    (∀ cf ∈ evalRatingFields, row cf.1 = "" →
        ratingOk cf.2 (normCell (row cf.1)) = true) ∧
    (∀ f v, checkRatings evalRatingFields row = some (f, v) →
        ∃ cf ∈ evalRatingFields, cf.2 = f ∧ row cf.1 ≠ "" ∧
          normCell (row cf.1) = v ∧
          v ∉ (["1", "2", "3", "4", "5", "NA"] : List String) ∧
          (f = "session_helpful" → v ∉ (["YES", "NO"] : List String))) ∧
    ((∀ cf ∈ evalRatingFields, ratingOk cf.2 (normCell (row cf.1)) = true) →
        checkRatings evalRatingFields row = none) := by
  refine ⟨?_, ?_, ?_⟩
  · intro cf _ hempty
    rw [hempty]
    have : normCell "" = "NA" := by decide
    rw [this]
    exact ratingOk_NA cf.2
  · intro f v h
    rcases checkRatings_some_spec row evalRatingFields f v h with
      ⟨cf, hcf, hf, hv, hbad⟩
    have hnonempty : row cf.1 ≠ "" := by
      intro he
      have hna : v = "NA" := by
        rw [← hv, he]
        decide
      rw [hna, ratingOk_NA] at hbad
      cases hbad
    refine ⟨cf, hcf, hf, hnonempty, hv, ?_, ?_⟩
    · intro hmem
      have ht : ratingOk f v = true := by
        unfold ratingOk
        have hc : (["1", "2", "3", "4", "5", "NA"] : List String).contains v = true := by
          simpa using hmem
        rw [hc]
        simp
      rw [ht] at hbad
      cases hbad
    · intro hsh hmem
      have ht : ratingOk f v = true := by
        unfold ratingOk
        have hc : (["YES", "NO"] : List String).contains v = true := by
          simpa using hmem
        have hfs : (f == "session_helpful") = true := by
          rw [hsh]
          decide
        rw [hc, hfs]
        simp
      rw [ht] at hbad
      cases hbad
  · intro hall
    exact checkRatings_none_of_ok row evalRatingFields hall

/-- Witness for C10: a fully empty row passes the rating validation. -/
theorem c10_witness :
    checkRatings evalRatingFields (fun _ => "") = none :=
  (c10_rating_validation (fun _ => "")).2.2 (by decide)

end HWD
